import Mathlib

/-!
# Verification of the Message / Session / IntentContext logic of ovos-bus-client

Shallow embedding of the parts of `ovos_bus_client/message.py` and
`ovos_bus_client/session.py` that the claims are about.

Python/JSON values are modelled by the mutual inductive family
`Value` / `VList` / `VObj`; Python dicts are modelled as association lists in
insertion order (Python dicts preserve insertion order, and assignment to an
existing key keeps its position).  Python numbers (int and float) are collapsed
into one rational-valued constructor, matching Python cross-type numeric
equality (`1 == 1.0`).  Equality of modelled values is structural; Python dict
equality ignores insertion order, so structural equality is a sound refinement
of it (equal model values are `==` in Python), and every comparison performed
by the claims is on scalars or on identical trees, where the two coincide.

Wall-clock times (`time.time()`) are passed explicitly as arguments and are
modelled as integers — the code only ever compares time differences against
thresholds, so any linearly ordered, subtraction-closed time domain is
adequate; fallible
Python code (raising `KeyError`, `IndexError`, `TypeError`, `RuntimeError`,
`AssertionError`) is modelled with `Except String`.
-/

namespace OvosBusClient

mutual
/-- A JSON-compatible Python value: `None`, `bool`, number (int or float,
modelled as a rational), `str`, `list`, `dict`. -/
inductive Value : Type where
  | null : Value
  | bool : Bool → Value
  | num : ℚ → Value
  | str : String → Value
  | arr : VList → Value
  | obj : VObj → Value

/-- A Python list of values. -/
inductive VList : Type where
  | nil : VList
  | cons : Value → VList → VList

/-- A Python dict with string keys, in insertion order. -/
inductive VObj : Type where
  | nil : VObj
  | cons : String → Value → VObj → VObj
end

deriving instance DecidableEq for Value
deriving instance DecidableEq for VList
deriving instance DecidableEq for VObj

/-- Python `d.get(k)`: value of the first binding of `k`, if any. -/
def VObj.get : VObj → String → Option Value
  | .nil, _ => none
  | .cons k' v tl, k => if k' = k then some v else VObj.get tl k

/-- Python `d[k] = v`: replace the value at `k` in place if the key is present
(keeping its position, as Python dicts do), else append a new binding. -/
def VObj.set : VObj → String → Value → VObj
  | .nil, k, v => .cons k v .nil
  | .cons k' v' tl, k, v =>
      if k' = k then .cons k v tl else .cons k' v' (VObj.set tl k v)

/-- Python `k in d` on a dict: key membership. -/
def VObj.hasKey (d : VObj) (k : String) : Bool :=
  (d.get k).isSome

/-- Python `len(d.keys()) == 0`. -/
def VObj.isEmpty : VObj → Bool
  | .nil => true
  | .cons _ _ _ => false

/-- Does every binding `(k, v)` of the dict satisfy `p k v`? -/
def VObj.all (p : String → Value → Bool) : VObj → Bool
  | .nil => true
  | .cons k v tl => p k v && VObj.all p tl

/-- Python `for k in src: dst[k] = src[k]` (dict update, in iteration order). -/
def VObj.updateWith (dst : VObj) : VObj → VObj
  | .nil => dst
  | .cons k v tl => VObj.updateWith (dst.set k v) tl

/-- Python `for k, v in src.items(): if k not in dst: dst[k] = v`
(fill only the missing keys, never overwrite). -/
def VObj.fillMissing (dst : VObj) : VObj → VObj
  | .nil => dst
  | .cons k v tl =>
      VObj.fillMissing (if dst.hasKey k then dst else dst.set k v) tl

/-- Python `v in l` on a list: membership by equality. -/
def VList.containsVal (l : VList) (v : Value) : Bool :=
  match l with
  | .nil => false
  | .cons x tl => x == v || VList.containsVal tl v

/-- Python truthiness of a value: `None`, `False`, `0`, `""`, `[]`, `{}` are
falsy, everything else is truthy. -/
def Value.truthy : Value → Bool
  | .null => false
  | .bool b => b
  | .num q => q != 0
  | .str s => s != ""
  | .arr .nil => false
  | .arr (.cons _ _) => true
  | .obj .nil => false
  | .obj (.cons _ _ _) => true

/-- Python `a or b` where `a` is the result of a `dict.get` (so `a` may be
missing, i.e. `None`): falsy values fall through to the default. -/
def pyOr (a : Option Value) (b : Value) : Value :=
  match a with
  | none => b
  | some v => if v.truthy then v else b

/-- Python `needle in container` for the container shapes that occur in this
code: element membership for lists, substring test for strings, key membership
for dicts; iteration over other values raises `TypeError`.  Model dicts only
ever have string keys, so a non-string needle is never a dict key. -/
def pyIn (needle : Value) (container : Value) : Except String Bool :=
  match container with
  | .arr l => .ok (l.containsVal needle)
  | .str s =>
      match needle with
      | .str n => .ok (decide (n.toList <:+: s.toList))
      | _ => .error "TypeError: in string requires string as left operand"
  | .obj o =>
      match needle with
      | .str k => .ok (o.hasKey k)
      | _ => .ok false
  | _ => .error "TypeError: argument is not iterable"

/-- Map a fallible function over a list, stopping at the first error (the
model of a Python `for` loop body that may raise). -/
def mapE {α β : Type} (f : α → Except String β) : List α → Except String (List β)
  | [] => .ok []
  | x :: xs =>
      match f x with
      | .error e => .error e
      | .ok y =>
          match mapE f xs with
          | .error e => .error e
          | .ok ys => .ok (y :: ys)

/-- Filter a list by a fallible predicate, stopping at the first error (the
model of a Python list comprehension whose condition may raise). -/
def filterE {α : Type} (p : α → Except String Bool) : List α → Except String (List α)
  | [] => .ok []
  | x :: xs =>
      match p x with
      | .error e => .error e
      | .ok b =>
          match filterE p xs with
          | .error e => .error e
          | .ok l => .ok (if b then x :: l else l)

/-- Lookup in an association list with arbitrary values (used for the
`SessionManager.sessions` dict, whose values are object references). -/
def lookupA {α : Type} : List (String × α) → String → Option α
  | [], _ => none
  | (k', v) :: tl, k => if k' = k then some v else lookupA tl k

/-- Assignment in an association list: replace in place if the key is present,
else append (Python dict assignment). -/
def setA {α : Type} : List (String × α) → String → α → List (String × α)
  | [], k, v => [(k, v)]
  | (k', v') :: tl, k, v =>
      if k' = k then (k, v) :: tl else (k', v') :: setA tl k v

@[simp]
theorem VObj.get_set_self : ∀ (d : VObj) (k : String) (v : Value),
    (d.set k v).get k = some v
  | .nil, k, v => by simp [VObj.set, VObj.get]
  | .cons k' v' tl, k, v => by
      by_cases h : k' = k <;>
        simp [VObj.set, VObj.get, h, VObj.get_set_self tl k v]

@[simp]
theorem VObj.get_set_ne : ∀ (d : VObj) (k k' : String) (v : Value),
    k' ≠ k → (d.set k v).get k' = d.get k'
  | .nil, k, k', v, h => by simp [VObj.set, VObj.get, Ne.symm h]
  | .cons k'' v'' tl, k, k', v, h => by
      by_cases h2 : k'' = k <;>
        simp [VObj.set, VObj.get, h2, VObj.get_set_ne tl k k' v h] <;>
        by_cases h3 : k'' = k' <;>
        simp_all [VObj.get]

@[simp]
theorem lookupA_setA_self {α : Type} (l : List (String × α)) (k : String) (v : α) :
    lookupA (setA l k v) k = some v := by
  induction l with
  | nil => simp [setA, lookupA]
  | cons p tl ih =>
      by_cases h : p.1 = k <;> simp [setA, lookupA, h, ih]

@[simp]
theorem lookupA_setA_ne {α : Type} (l : List (String × α)) (k k' : String) (v : α)
    (h : k' ≠ k) : lookupA (setA l k v) k' = lookupA l k' := by
  induction l with
  | nil => simp [setA, lookupA, Ne.symm h]
  | cons p tl ih =>
      by_cases h2 : p.1 = k <;>
        simp [setA, lookupA, h2, ih] <;>
        by_cases h3 : p.1 = k' <;>
        simp_all [lookupA]

/-! ## Message envelope (`ovos_bus_client/message.py`)

The wire format is JSON text; `orjson.dumps` / `orjson.loads` are an external
library and are a faithful bijection between JSON-safe trees and their texts,
so the model works directly on the parsed trees: `Message.serialize` produces
the parsed form of the emitted JSON text, and `Message.deserialize` consumes a
parsed tree. -/

/-- Transport configuration read from `Configuration()["websocket"]`
(message.py lines 82-85): `secret_key` defaults to unset, and
`allow_unencrypted` defaults to `secret_key is None`. -/
structure WSConfig : Type where
  secret_key : Option String
  allow_unencrypted : Bool

/-- A `Message` (message.py line 87): type, data dict, context dict.
`Message.__init__` asserts that `data` and `context` are dicts. -/
structure Message : Type where
  msg_type : String
  data : VObj
  context : VObj
  deriving DecidableEq

/-- `Message._json_dump` (lines 131-151): walks the value and replaces every
item that has a `serialize` attribute by `item.serialize()`.  A JSON-native
value (`None`, bool, number, str, list, dict) has no `serialize` attribute, and
model values are JSON-native by construction, so the walk is the identity. -/
def Message.json_dump (value : VObj) : VObj := value

/-- `Message.serialize` (lines 108-125): emit
`{"type": ..., "data": ..., "context": ...}`; when a secret key is configured,
the JSON text is encrypted (`encrypt_as_dict`, an external AEAD) and the
`{ciphertext, tag, nonce}` dict is emitted instead.  Encryption is kept
abstract as the parameter `encryptFn`; no claim exercises it. -/
def Message.serialize (cfg : WSConfig) (encryptFn : String → Value → VObj)
    (m : Message) : Value :=
  let msg : Value :=
    .obj (.cons "type" (.str m.msg_type)
           (.cons "data" (.obj (Message.json_dump m.data))
             (.cons "context" (.obj (Message.json_dump m.context)) .nil)))
  match cfg.secret_key with
  | some key => .obj (encryptFn key msg)
  | none => msg

/-- `Message._json_load` (lines 153-165): after parsing, assert the result is
a dict; then, only when a secret key is configured: decrypt if a
`ciphertext` key is present, else raise `RuntimeError` unless unencrypted
traffic is allowed.  When no secret key is configured the dict is returned
unchanged, whatever its keys.  `decrypt_from_dict` is kept abstract as the
parameter `decryptFn` (in the source it returns the decrypted JSON text
without re-parsing it; no claim exercises that branch). -/
def Message.json_load (cfg : WSConfig) (decryptFn : String → VObj → Except String VObj)
    (value : Value) : Except String VObj :=
  match value with
  | .obj o =>
      match cfg.secret_key with
      | some key =>
          if o.hasKey "ciphertext" then decryptFn key o
          else if !cfg.allow_unencrypted then
            .error "RuntimeError: got an unencrypted message, configured to refuse"
          else .ok o
      | none => .ok o
  | _ => .error "AssertionError: not a dict"

/-- `Message.deserialize` (lines 167-187): load the dict, then build
`Message(obj.get("type") or "", obj.get("data") or {}, obj.get("context") or {})`.
The constructor asserts that data and context are dicts; a non-string `type`
value would be stored unchecked by `Message.__init__` and is unrepresentable in
the model (it never arises in any claim), so it is reported as an error. -/
def Message.deserialize (cfg : WSConfig) (decryptFn : String → VObj → Except String VObj)
    (value : Value) : Except String Message :=
  match Message.json_load cfg decryptFn value with
  | .error e => .error e
  | .ok o =>
      match pyOr (o.get "type") (.str ""), pyOr (o.get "data") (.obj .nil),
            pyOr (o.get "context") (.obj .nil) with
      | .str t, .obj d, .obj c => .ok ⟨t, d, c⟩
      | _, _, _ => .error "AssertionError: data or context not a dict"

/-- `Message.__eq__` (lines 101-106): structural equality of type, data and
context (the `isinstance` guard always passes between two model messages). -/
def Message.pyEq (a b : Message) : Bool :=
  a.msg_type == b.msg_type && a.data == b.data && a.context == b.context

/-- The context built by `Message.reply` (lines 229-236) before the
source/destination swap: deep-copy the context of `self`, overwrite it with
the `context` argument key by key, then, if the (copied) `data` has a
`destination` key, overwrite the destination from it.  Deep copies are the
identity under the value semantics of the model. -/
def Message.replyContextPre (m : Message) (data : VObj) (context : VObj) : VObj :=
  let nc := m.context.updateWith context
  match data.get "destination" with
  | some dv => nc.set "destination" dv
  | none => nc

/-- `Message.reply` (lines 207-241): build the pre-swap context, then, when
both `source` and `destination` are present, swap them
(`s = c["destination"]; c["destination"] = c["source"]; c["source"] = s`).
Optional arguments default to `{}` (`deepcopy(data) or {}` and
`context or {}`). -/
def Message.reply (m : Message) (msg_type : String)
    (data : Option VObj) (context : Option VObj) : Message :=
  let data := data.getD .nil
  let context := context.getD .nil
  let nc := m.replyContextPre data context
  let nc :=
    if nc.hasKey "source" && nc.hasKey "destination" then
      let s := (nc.get "destination").getD .null
      let nc := nc.set "destination" ((nc.get "source").getD .null)
      nc.set "source" s
    else nc
  ⟨msg_type, data, nc⟩

/-! ## Intent context manager (`ovos_bus_client/session.py` lines 19-260)

Entities are Python dicts (`VObj`); frame insertion times (`time.time()`) are
rationals passed in explicitly.  The configuration-read fields
`context_keywords` / `context_greedy` / `context_max_frames` are omitted from
the state: none of the embedded methods reads them (`get_context` takes
`max_frames` as a parameter). -/

/-- An `IntentContextManagerFrame` (session.py lines 19-29). -/
structure ICMFrame : Type where
  entities : List VObj
  metadata : VObj
  deriving DecidableEq

/-- `IntentContextManagerFrame.metadata_matches` (lines 47-66):
`result = len(query.keys()) > 0`, then for every key of the query,
`result = result and query[key] == self.metadata.get(key)`.  A missing key
makes `dict.get` return `None`, so a query value of `None` also matches a
missing key. -/
def ICMFrame.metadata_matches (f : ICMFrame) (query : VObj) : Bool :=
  !query.isEmpty && query.all (fun k v => v == ((f.metadata.get k).getD .null))

/-- `IntentContextManagerFrame.merge_context` (lines 68-80): append the tag to
the entities and add only the metadata keys not already present. -/
def ICMFrame.merge_context (f : ICMFrame) (tag : VObj) (metadata : VObj) : ICMFrame :=
  { entities := f.entities ++ [tag],
    metadata := f.metadata.fillMissing metadata }

/-- An `IntentContextManager` (session.py lines 83-111): the frame stack,
newest first, each frame paired with its insertion time, plus the frame
timeout in seconds. -/
structure IntentContextManager : Type where
  frame_stack : List (ICMFrame × Int)
  timeout : Int
  deriving DecidableEq

/-- `IntentContextManager.clear_context` (lines 152-154). -/
def IntentContextManager.clear_context (icm : IntentContextManager) :
    IntentContextManager :=
  { icm with frame_stack := [] }

/-- `IntentContextManager.remove_context` (lines 156-163): rebuild the frame
stack as `[(f, t) ... if context_id in f.entities[0].get("data", [])]`.
Note the comprehension KEEPS the frames whose first entity data contains
`context_id` and drops all others; `f.entities[0]` raises `IndexError` on a
frame with no entities. -/
def IntentContextManager.remove_context (icm : IntentContextManager)
    (context_id : String) : Except String IntentContextManager :=
  (filterE (fun p =>
      match p.1.entities with
      | [] => .error "IndexError: list index out of range"
      | e :: _ => pyIn (.str context_id) ((e.get "data").getD (.arr .nil)))
    icm.frame_stack).map
    (fun fs => { icm with frame_stack := fs })

/-- `IntentContextManager.inject_context` (lines 165-190): if the stack has a
top frame whose metadata matches, merge the entity into it, else insert a new
frame `(entities=[entity], metadata=metadata.copy())` at position 0 with the
current time.  `metadata` defaults to `{}`.  The `try/except
(IndexError, KeyError): pass` wrapper never fires: none of the operations in
the body raises either exception. -/
def IntentContextManager.inject_context (icm : IntentContextManager)
    (entity : VObj) (metadata : Option VObj) (now : Int) : IntentContextManager :=
  let metadata := metadata.getD .nil
  match icm.frame_stack with
  | [] => { icm with frame_stack := [(⟨[entity], metadata⟩, now)] }
  | (top, t0) :: rest =>
      if top.metadata_matches metadata then
        { icm with frame_stack := (top.merge_context entity metadata, t0) :: rest }
      else
        { icm with frame_stack := (⟨[entity], metadata⟩, now) :: (top, t0) :: rest }

/-- The `relevant_frames` of `get_context` (lines 223-224): frames newer than
the timeout, in stack order. -/
def IntentContextManager.relevant_frames (icm : IntentContextManager) (now : Int) :
    List ICMFrame :=
  (icm.frame_stack.filter (fun p => decide (now - p.2 < icm.timeout))).map Prod.fst

/-- The frames visited by the loop of `get_context` (lines 225-233):
`max_frames` is replaced by `len(relevant_frames)` when it is `None` or `0`
(falsy) or exceeds the length, and the loop reads `relevant_frames[i]` for
`i in range(max_frames)`, i.e. a prefix (empty for a negative bound). -/
def IntentContextManager.loop_frames (icm : IntentContextManager)
    (max_frames : Option Int) (now : Int) : List ICMFrame :=
  let rel := icm.relevant_frames now
  let mf : Int :=
    match max_frames with
    | none => (rel.length : Int)
    | some m => if m = 0 ∨ (rel.length : Int) < m then (rel.length : Int) else m
  rel.take mf.toNat

/-- The per-entity update in the loop of `get_context` (lines 236-238):
`entity["confidence"] = entity.get("confidence", 1.0) / (2.0 + depth)`.
Python booleans divide as 0/1; any other non-numeric confidence raises
`TypeError`. -/
def set_confidence (depth : ℕ) (e : VObj) : Except String VObj :=
  match (e.get "confidence").getD (.num 1) with
  | .num q => .ok (e.set "confidence" (.num (q / ((2 : ℚ) + depth))))
  | .bool b => .ok (e.set "confidence" (.num ((if b then (1 : ℚ) else 0) / ((2 : ℚ) + depth))))
  | _ => .error "TypeError: unsupported operand types for division"

/-- The frame loop of `get_context` (lines 229-244).  The loop variable
`entity` starts as `{}` and keeps its previous value across a frame whose
entities list is empty; after each frame the depth update reads
`entity["origin"]` — a `KeyError` when the last-iterated entity has no
`origin` key — and increments `depth` when the origin changed (or is the
empty string), then records it in `last`. -/
def get_context_loop : List ICMFrame → List VObj → Value → ℕ → VObj →
    Except String (List VObj)
  | [], context, _, _, _ => .ok context
  | f :: rest, context, last, depth, entity =>
      match mapE (set_confidence depth) f.entities with
      | .error e => .error e
      | .ok fes =>
          let context := context ++ fes
          let entity := fes.getLast?.getD entity
          match entity.get "origin" with
          | none => .error "KeyError: origin"
          | some origin =>
              let depth := if origin != last || origin == .str "" then depth + 1 else depth
              get_context_loop rest context origin depth entity

/-- The `missing_entities` filter of `get_context` (lines 247-255): keep an
entity when its `data` value is still in the missing list, then remove that
value from the list (`list.remove` drops the first occurrence), so at most one
entity per requested value is returned. -/
def missing_filter : List VObj → List Value → List VObj
  | [], _ => []
  | e :: rest, missing =>
      let d := (e.get "data").getD .null
      if missing.contains d then e :: missing_filter rest (missing.erase d)
      else missing_filter rest missing

/-- The keyword read by `_strip_result` (line 202): `feature["data"][0][1]`,
with the exceptions Python raises on each malformed shape. -/
def strip_keyword (e : VObj) : Except String Value :=
  match e.get "data" with
  | none => .error "KeyError: data"
  | some (.arr .nil) => .error "IndexError: list index out of range"
  | some (.arr (.cons x _)) =>
      match x with
      | .arr (.cons _ (.cons y _)) => .ok y
      | .arr _ => .error "IndexError: list index out of range"
      | .str _ => .error "IndexError: string index out of range"
      | .obj _ => .error "KeyError: 0"
      | _ => .error "TypeError: not subscriptable"
  | some (.str _) => .error "IndexError: string index out of range"
  | some (.obj _) => .error "KeyError: 0"
  | some _ => .error "TypeError: not subscriptable"

/-- `IntentContextManager._strip_result` (lines 192-206): keep only the first
occurrence of each keyword `feature["data"][0][1]`. -/
def strip_result : List VObj → List Value → Except String (List VObj)
  | [], _ => .ok []
  | f :: rest, processed =>
      match strip_keyword f with
      | .error e => .error e
      | .ok kw =>
          if processed.contains kw then strip_result rest processed
          else
            match strip_result rest (processed ++ [kw]) with
            | .error e => .error e
            | .ok l => .ok (f :: l)

/-- `IntentContextManager.get_context` (lines 208-260): run the frame loop over
the bounded window of non-timed-out frames, filter by `missing_entities` when
that list is non-empty (`missing_entities or []` first replaces `None`), and
strip duplicate keywords. -/
def IntentContextManager.get_context (icm : IntentContextManager)
    (max_frames : Option Int) (missing_entities : Option (List Value)) (now : Int) :
    Except String (List VObj) :=
  let missing := missing_entities.getD []
  match get_context_loop (icm.loop_frames max_frames now) [] (.str "") 0 .nil with
  | .error e => .error e
  | .ok context =>
      let result := if missing.isEmpty then context else missing_filter context missing
      strip_result result []

/-! ## Session and SessionManager (`ovos_bus_client/session.py` lines 263-607)

Only the `Session` fields the claims touch are embedded: `session_id`,
`touch_time` and `expiration_seconds`.  The remaining constructor fields
(lang, site_id, pipeline, preferences, context, ...) are filled from
configuration and are read by no claim.

`SessionManager` keeps a class-level dict mapping session id to a Session
OBJECT REFERENCE, and `update` mutates the passed object in place, so
reference identity matters (the spec invariant is `sessions["default"] is
default_session`).  The registry is therefore modelled with an explicit
object heap: `Nat` is a reference, `heap` resolves it, and the `sessions`
dict stores references. -/

/-- The claim-relevant fields of a `Session` (session.py line 263). -/
structure Session : Type where
  session_id : String
  touch_time : Int
  expiration_seconds : Int
  deriving DecidableEq

/-- The claim-relevant assignments of `Session.__init__` (lines 295 and
312-314): `session_id = session_id or str(uuid4())`, `touch_time =
int(time.time())` and `expiration_seconds = expiration_seconds or
Configuration().get("session", {}).get("ttl", -1)`.  `session_ttl` is the
configured TTL, `-1` when unset (the shipped default).  Note the Python `or`:
`None` and the number `0` are both falsy, so an explicit
`expiration_seconds=0` falls through to the configured TTL. -/
def Session.init (session_ttl : Int) (session_id : Option String) (uuid : String)
    (expiration_seconds : Option Int) (now : Int) : Session :=
  { session_id :=
      match session_id with
      | none => uuid
      | some s => if s = "" then uuid else s,
    touch_time := now,
    expiration_seconds :=
      match expiration_seconds with
      | none => session_ttl
      | some v => if v = 0 then session_ttl else v }

/-- `Session.expired` (lines 349-355): `False` when `expiration_seconds < 0`,
else `int(time.time()) - touch_time > expiration_seconds`. -/
def Session.expired (s : Session) (now : Int) : Bool :=
  if s.expiration_seconds < 0 then false
  else decide (now - s.touch_time > s.expiration_seconds)

/-- The language picked by `Session.from_message` (lines 494-495):
`message.context.get("lang") or message.data.get("lang")` — `None` (modelled
as `null`) when both are missing or falsy. -/
def lang_for_session (m : Message) : Value :=
  pyOr (m.context.get "lang") ((m.data.get "lang").getD .null)

/-- The message-visible behaviour of `Session.from_message` (lines 483-512)
when a message is supplied: when the context has a `session` dict lacking a
`lang` key, the dict is mutated IN PLACE (`sess["lang"] = lang`) before
`Session.deserialize(sess)` is called — the message still references the same
dict, so the message context now carries the extra key.  The result pairs the
post-call message with the dict handed to `Session.deserialize` (`none` when
the method falls back to `SessionManager.default_session`).
`Session.deserialize` itself only reads that dict and is not embedded; a
non-dict `session` value would raise on the item assignment. -/
def Session.from_message_effect (m : Message) : Except String (Message × Option VObj) :=
  match m.context.get "session" with
  | some (.obj sess) =>
      let lang := lang_for_session m
      if sess.hasKey "lang" then .ok (m, some sess)
      else
        let sess' := sess.set "lang" lang
        .ok ({ m with context := m.context.set "session" (.obj sess') }, some sess')
  | some _ => .error "TypeError: session context is not a dict"
  | none => .ok (m, none)

/-- The `SessionManager` class-level state: an object heap resolving session
references, the `sessions` dict (id to reference) and the `default_session`
reference (session.py lines 515-519). -/
structure SMState : Type where
  heap : Nat → Session
  sessions : List (String × Nat)
  default_session : Nat

/-- `SessionManager.update` (lines 564-582) on a (non-`None`) session
reference `r`: when `make_default`, first rename the session object itself to
`"default"` (an in-place mutation, visible through every reference to it);
then, if its id is `"default"`, point `default_session` at it; finally store
it in the `sessions` dict under its id.  (`update(None)` raises `ValueError`;
the model takes an actual reference, matching the claim's non-raising calls.) -/
def SMState.update (st : SMState) (r : Nat) (make_default : Bool) : SMState :=
  let heap :=
    if make_default then
      Function.update st.heap r { st.heap r with session_id := "default" }
    else st.heap
  { heap := heap,
    default_session :=
      if (heap r).session_id = "default" then r else st.default_session,
    sessions := setA st.sessions (heap r).session_id r }

/-- Python truthiness of the attribute reference `s.expired` as it appears in
`prune_sessions` (line 550): the comprehension condition is `not s.expired`
WITHOUT calling the method, and a bound-method object is always truthy, so
the condition is `False` for every session. -/
def expired_attr_truthy (_s : Session) : Bool := true

/-- `SessionManager.prune_sessions` (lines 539-550): rebuild `sessions` as
`{sid: s for sid, s in sessions.items() if not s.expired}`.  The filter tests
the truthiness of the bound method `s.expired` (it is never called), so no
entry ever passes. -/
def SMState.prune_sessions (st : SMState) : SMState :=
  { st with
    sessions := st.sessions.filter (fun p => !expired_attr_truthy (st.heap p.2)) }

/-! ## Claim theorems -/

/-- Claim C1, evidence of the code bug.  `prune_sessions` is claimed to remove
exactly the expired, non-default sessions and never the `"default"` entry.  In
the source the comprehension condition is `not s.expired` — the bound method
is never called and a bound-method object is always truthy — so NO entry
passes the filter.  On a registry holding a fresh never-expiring default
session and a fresh non-expired session `"abc"` (both `expired()` false), the
call empties the registry: the non-expired session and the `"default"` entry
itself are removed. -/
theorem prune_sessions_removes_everything :
    let heap : Nat → Session :=
      fun n => if n = 0 then ⟨"default", 1000, -1⟩ else ⟨"abc", 1000, 5⟩
    let st : SMState := ⟨heap, [("default", 0), ("abc", 1)], 0⟩
    (st.heap 0).expired 1001 = false
    ∧ (st.heap 1).expired 1001 = false
    ∧ st.prune_sessions.sessions = []
    ∧ lookupA st.prune_sessions.sessions "default" = none := by
  exact ⟨rfl, rfl, rfl, rfl⟩

/-- Claim C2, counterexample.  With no secret key configured (and therefore
`allow_unencrypted` defaulting to true), `deserialize` of an encrypted payload
`{ciphertext, tag, nonce}` does NOT fail: `_json_load` returns the dict
untouched and `deserialize` silently builds the empty message
`Message("", {}, {})`, contradicting the claimed fail-closed behaviour. -/
theorem deserialize_encrypted_no_secret_counterexample :
    Message.deserialize ⟨none, true⟩ (fun _ o => .ok o)
      (.obj (.cons "ciphertext" (.str "00")
        (.cons "tag" (.str "00") (.cons "nonce" (.str "00") .nil))))
      = .ok ⟨"", .nil, .nil⟩ := rfl

/-- Claim C2 as amended: when no secret key is configured, `deserialize`
never consults the `ciphertext` key — a frame carrying no `type`/`data`/
`context` keys (in particular an encrypted payload) deserializes successfully
to the empty `Message("", {}, {})` instead of failing; and when a secret key
is configured with `allow_unencrypted` false, `deserialize` of any plaintext
frame (no `ciphertext` key) raises `RuntimeError`. -/
theorem deserialize_modes (decryptFn : String → VObj → Except String VObj)
    (o : VObj) :
    (∀ cfg : WSConfig, cfg.secret_key = none →
        o.get "type" = none → o.get "data" = none → o.get "context" = none →
        Message.deserialize cfg decryptFn (.obj o) = .ok ⟨"", .nil, .nil⟩)
    ∧ (∀ (cfg : WSConfig) (key : String), cfg.secret_key = some key →
        cfg.allow_unencrypted = false → o.hasKey "ciphertext" = false →
        Message.deserialize cfg decryptFn (.obj o)
          = .error "RuntimeError: got an unencrypted message, configured to refuse") := by
  constructor
  · intro cfg hsec ht hd hc
    simp [Message.deserialize, Message.json_load, hsec, ht, hd, hc, pyOr]
  · intro cfg key hsec hallow hciph
    simp [Message.deserialize, Message.json_load, hsec, hallow, hciph]

/-- Claim C2, witness: both amended modes at concrete inputs — the encrypted
payload with no secret gives the empty message, and a plaintext `speak` frame
under a configured secret with unencrypted traffic refused raises. -/
theorem deserialize_modes_witness :
    Message.deserialize ⟨none, true⟩ (fun _ o => .ok o)
      (.obj (.cons "ciphertext" (.str "ab") .nil)) = .ok ⟨"", .nil, .nil⟩
    ∧ Message.deserialize ⟨some "k", false⟩ (fun _ o => .ok o)
      (.obj (.cons "type" (.str "speak") .nil))
      = .error "RuntimeError: got an unencrypted message, configured to refuse" := by
  constructor
  · exact (deserialize_modes (fun _ o => .ok o)
      (.cons "ciphertext" (.str "ab") .nil)).1 ⟨none, true⟩ rfl rfl rfl rfl
  · exact (deserialize_modes (fun _ o => .ok o)
      (.cons "type" (.str "speak") .nil)).2 ⟨some "k", false⟩ "k" rfl rfl rfl

/-- Claim C3: `reply` copies the context (overwriting with the `context`
argument and then, when the copied data has a `destination` key, overwriting
the destination — `replyContextPre`); when both `source` and `destination`
are present in that resulting context they are swapped and every other key is
untouched; when at most one of them is present the context is returned
unchanged, so both keys keep their values.  With no extra arguments (plain
`m.reply(t)`) the pre-swap context is exactly `m.context`. -/
theorem reply_swap (m : Message) (t : String) (data context : Option VObj) :
    (m.reply t data context).msg_type = t
    ∧ (m.reply t data context).data = data.getD .nil
    ∧ (letI pre := m.replyContextPre (data.getD .nil) (context.getD .nil)
       (pre.hasKey "source" = true → pre.hasKey "destination" = true →
          (m.reply t data context).context.get "source" = pre.get "destination"
          ∧ (m.reply t data context).context.get "destination" = pre.get "source"
          ∧ (∀ k, k ≠ "source" → k ≠ "destination" →
              (m.reply t data context).context.get k = pre.get k)))
    ∧ (letI pre := m.replyContextPre (data.getD .nil) (context.getD .nil)
       ((pre.hasKey "source" = false ∨ pre.hasKey "destination" = false) →
          (m.reply t data context).context = pre))
    ∧ (data = none → context = none →
        m.replyContextPre (data.getD .nil) (context.getD .nil) = m.context) := by
  refine ⟨rfl, rfl, ?_, ?_, ?_⟩
  · intro hs hd
    simp only [Message.reply, hs, hd, Bool.and_self, if_true]
    set pre := m.replyContextPre (data.getD .nil) (context.getD .nil) with hpre
    refine ⟨?_, ?_, ?_⟩
    · rw [VObj.get_set_self]
      rcases ho : pre.get "destination" with _ | v
      · rw [VObj.hasKey, ho] at hd; simp at hd
      · simp [ho]
    · rw [VObj.get_set_ne _ "source" "destination" _ (by decide), VObj.get_set_self]
      rcases ho : pre.get "source" with _ | v
      · rw [VObj.hasKey, ho] at hs; simp at hs
      · simp [ho]
    · intro k hks hkd
      rw [VObj.get_set_ne _ "source" k _ hks, VObj.get_set_ne _ "destination" k _ hkd]
  · intro hor
    simp only [Message.reply]
    rcases hor with h | h <;> simp [h]
  · intro hdn hcn
    subst hdn; subst hcn
    rfl

/-- Claim C3, witness: a message with context `{source: A, destination: B}`
replied to with `m.reply("x")` has them swapped. -/
theorem reply_swap_witness :
    ((Message.mk "t" .nil
        (.cons "source" (.str "A") (.cons "destination" (.str "B") .nil))).reply
        "x" none none).context.get "source" = some (.str "B")
    ∧ ((Message.mk "t" .nil
        (.cons "source" (.str "A") (.cons "destination" (.str "B") .nil))).reply
        "x" none none).context.get "destination" = some (.str "A") := by
  have h := reply_swap
    (Message.mk "t" .nil
      (.cons "source" (.str "A") (.cons "destination" (.str "B") .nil)))
    "x" none none
  obtain ⟨-, -, hb, -, -⟩ := h
  have hc := hb rfl rfl
  exact ⟨hc.1.trans rfl, hc.2.1.trans rfl⟩

/-- Helper for the round trip: `obj.get("type") or ""` restores any string. -/
theorem pyOr_str (t : String) : pyOr (some (.str t)) (.str "") = .str t := by
  by_cases h : t = "" <;> simp [pyOr, Value.truthy, h]

/-- Helper for the round trip: `obj.get("data") or {}` restores any dict. -/
theorem pyOr_obj (d : VObj) : pyOr (some (.obj d)) (.obj .nil) = .obj d := by
  cases d <;> simp [pyOr, Value.truthy]

/-- Claim C4: with no secret key configured, `deserialize(serialize(m))`
yields `m` again for every message `m` (model messages are JSON-safe by
construction), and `m == m` holds under the structural equality of
`Message.__eq__`. -/
theorem serialize_deserialize_roundtrip (cfg : WSConfig)
    (encryptFn : String → Value → VObj)
    (decryptFn : String → VObj → Except String VObj)
    (m : Message) (h : cfg.secret_key = none) :
    Message.deserialize cfg decryptFn (Message.serialize cfg encryptFn m) = .ok m
    ∧ Message.pyEq m m = true := by
  obtain ⟨t, d, c⟩ := m
  constructor
  · simp only [Message.serialize, Message.json_dump, h]
    simp only [Message.deserialize, Message.json_load, h]
    simp [VObj.get, pyOr_str, pyOr_obj]
  · simp [Message.pyEq]

/-- Claim C4, witness: a concrete `speak` message with data
`{"utterance": "hi"}` round-trips. -/
theorem serialize_deserialize_roundtrip_witness :
    Message.deserialize ⟨none, true⟩ (fun _ o => .ok o)
      (Message.serialize ⟨none, true⟩ (fun _ _ => .nil)
        ⟨"speak", .cons "utterance" (.str "hi") .nil, .nil⟩)
      = .ok ⟨"speak", .cons "utterance" (.str "hi") .nil, .nil⟩
    ∧ Message.pyEq ⟨"speak", .cons "utterance" (.str "hi") .nil, .nil⟩
        ⟨"speak", .cons "utterance" (.str "hi") .nil, .nil⟩ = true :=
  serialize_deserialize_roundtrip ⟨none, true⟩ (fun _ _ => .nil)
    (fun _ o => .ok o) ⟨"speak", .cons "utterance" (.str "hi") .nil, .nil⟩ rfl

/-- Claim C5, evidence of the code bug.  The `-1` half of the claim holds: a
session constructed with `expiration_seconds=-1` is never expired.  The `0`
half fails: `Session.__init__` assigns `expiration_seconds or
Configuration().get("session", {}).get("ttl", -1)` and the Python `or` treats
the number `0` as unset, so under the shipped default configuration (no
`session.ttl`, hence `-1`) a session constructed with `expiration_seconds=0`
stores `-1` and `expired()` is false at EVERY later time — the claim (and the
project's own `test_expired`, which expects `expired()` true once the stored
`expiration_seconds` is `0`) says it should be true at any time strictly
after the touch. -/
theorem session_expiration_zero_discarded :
    (∀ (ttl : Int) (sid : Option String) (uuid : String) (t now : Int),
        (Session.init ttl sid uuid (some (-1)) t).expired now = false)
    ∧ (Session.init (-1) (some "s") "u" (some 0) 100).expiration_seconds = -1
    ∧ (∀ (t now : Int),
        (Session.init (-1) (some "s") "u" (some 0) t).expired now = false) := by
  refine ⟨?_, rfl, ?_⟩
  · intro ttl sid uuid t now
    simp [Session.init, Session.expired]
  · intro t now
    simp [Session.init, Session.expired]

/-- Claim C6: after `SessionManager.update(s, make_default=True)` the
`sessions["default"]` entry and `default_session` are the same object
reference `r` and that object's `session_id` is `"default"`; and `update`
with any arguments preserves the invariant `sessions["default"] is
default_session`. -/
theorem update_default_invariant (st : SMState) (r : Nat) (b : Bool)
    (h : lookupA st.sessions "default" = some st.default_session) :
    lookupA (st.update r b).sessions "default" = some (st.update r b).default_session
    ∧ (b = true →
        lookupA (st.update r b).sessions "default" = some r
        ∧ (st.update r b).default_session = r
        ∧ ((st.update r b).heap r).session_id = "default") := by
  cases b with
  | true =>
      refine ⟨?_, fun _ => ⟨?_, ?_, ?_⟩⟩ <;>
        simp [SMState.update, Function.update_same]
  | false =>
      refine ⟨?_, by simp⟩
      by_cases hid : (st.heap r).session_id = "default"
      · simp [SMState.update, hid]
      · simp only [SMState.update, if_neg hid, if_false, Bool.false_eq_true]
        rw [lookupA_setA_ne _ _ _ _ (fun hh => hid hh.symm)]
        exact h

/-- Claim C6, witness: a concrete two-session registry satisfying the
invariant, updated with `make_default=True` on the non-default session. -/
theorem update_default_invariant_witness :
    letI st : SMState :=
      ⟨fun n => if n = 0 then ⟨"default", 1000, -1⟩ else ⟨"abc", 1000, 5⟩,
       [("default", 0), ("abc", 1)], 0⟩
    lookupA (st.update 1 true).sessions "default" = some (st.update 1 true).default_session
    ∧ (true = true →
        lookupA (st.update 1 true).sessions "default" = some 1
        ∧ (st.update 1 true).default_session = 1
        ∧ ((st.update 1 true).heap 1).session_id = "default") :=
  update_default_invariant
    ⟨fun n => if n = 0 then ⟨"default", 1000, -1⟩ else ⟨"abc", 1000, 5⟩,
     [("default", 0), ("abc", 1)], 0⟩ 1 true rfl

/-- Claim C7, evidence of the code bug.  `remove_context(context_id)` is
claimed to remove exactly the frames whose first entity `data` matches
`context_id`.  The comprehension in the source keeps a frame exactly when
`context_id in f.entities[0].get("data", [])`, i.e. it KEEPS the matching
frames and drops every other frame.  On a stack of a matching frame `fA`
(first entity data contains `"ctx1"`) above a non-matching frame `fB`, the
call returns `[fA]`: the matching frame survives and the non-matching one is
removed — the exact opposite of the claim (and of the method's own
docstring). -/
theorem remove_context_keeps_matches :
    pyIn (.str "ctx1") (.arr (.cons (.str "ctx1") .nil)) = .ok true
    ∧ pyIn (.str "ctx1") (.arr (.cons (.str "other") .nil)) = .ok false
    ∧ IntentContextManager.remove_context
        ⟨[(⟨[.cons "data" (.arr (.cons (.str "ctx1") .nil)) .nil], .nil⟩, 0),
          (⟨[.cons "data" (.arr (.cons (.str "other") .nil)) .nil], .nil⟩, 0)], 120⟩
        "ctx1"
      = .ok ⟨[(⟨[.cons "data" (.arr (.cons (.str "ctx1") .nil)) .nil], .nil⟩, 0)], 120⟩ := by
  exact ⟨rfl, rfl, rfl⟩

/-- Claim C9: `Session.from_message` on a message whose context holds a
`session` dict lacking a `lang` key mutates that embedded dict in place,
inserting a `lang` entry taken from context or data (possibly null), before
handing it to `Session.deserialize`; the message's type and data are
unchanged, its context is unchanged at every other key, and the session dict
is unchanged at every key other than the inserted `lang`. -/
theorem from_message_inserts_lang (m : Message) (sess : VObj)
    (hs : m.context.get "session" = some (.obj sess))
    (hl : sess.hasKey "lang" = false) :
    ∃ m', Session.from_message_effect m
        = .ok (m', some (sess.set "lang" (lang_for_session m)))
      ∧ m'.msg_type = m.msg_type
      ∧ m'.data = m.data
      ∧ m'.context.get "session" = some (.obj (sess.set "lang" (lang_for_session m)))
      ∧ (∀ k, k ≠ "session" → m'.context.get k = m.context.get k)
      ∧ (sess.set "lang" (lang_for_session m)).get "lang" = some (lang_for_session m)
      ∧ (∀ k, k ≠ "lang" → (sess.set "lang" (lang_for_session m)).get k = sess.get k) := by
  refine ⟨Message.mk m.msg_type m.data
      (m.context.set "session" (.obj (sess.set "lang" (lang_for_session m)))),
    ?_, rfl, rfl, ?_, ?_, ?_, ?_⟩
  · simp [Session.from_message_effect, hs, hl]
  · exact VObj.get_set_self _ _ _
  · intro k hk
    exact VObj.get_set_ne _ _ _ _ hk
  · exact VObj.get_set_self _ _ _
  · intro k hk
    exact VObj.get_set_ne _ _ _ _ hk

/-- Claim C9, witness: a message with `lang` in its context and an embedded
session dict without one gets the context language copied into the embedded
dict. -/
theorem from_message_inserts_lang_witness :
    ∃ m', Session.from_message_effect
        ⟨"t", .nil, .cons "lang" (.str "en-US")
          (.cons "session" (.obj (.cons "session_id" (.str "s1") .nil)) .nil)⟩
        = .ok (m', some ((VObj.cons "session_id" (.str "s1") .nil).set "lang"
            (lang_for_session ⟨"t", .nil, .cons "lang" (.str "en-US")
              (.cons "session" (.obj (.cons "session_id" (.str "s1") .nil)) .nil)⟩)))
      ∧ m'.msg_type = "t"
      ∧ m'.data = .nil
      ∧ m'.context.get "session" = some (.obj ((VObj.cons "session_id" (.str "s1") .nil).set "lang"
            (lang_for_session ⟨"t", .nil, .cons "lang" (.str "en-US")
              (.cons "session" (.obj (.cons "session_id" (.str "s1") .nil)) .nil)⟩)))
      ∧ (∀ k, k ≠ "session" → m'.context.get k
          = (VObj.cons "lang" (.str "en-US")
              (.cons "session" (.obj (.cons "session_id" (.str "s1") .nil)) .nil)).get k)
      ∧ ((VObj.cons "session_id" (.str "s1") .nil).set "lang"
            (lang_for_session ⟨"t", .nil, .cons "lang" (.str "en-US")
              (.cons "session" (.obj (.cons "session_id" (.str "s1") .nil)) .nil)⟩)).get "lang"
          = some (lang_for_session ⟨"t", .nil, .cons "lang" (.str "en-US")
              (.cons "session" (.obj (.cons "session_id" (.str "s1") .nil)) .nil)⟩)
      ∧ (∀ k, k ≠ "lang" → ((VObj.cons "session_id" (.str "s1") .nil).set "lang"
            (lang_for_session ⟨"t", .nil, .cons "lang" (.str "en-US")
              (.cons "session" (.obj (.cons "session_id" (.str "s1") .nil)) .nil)⟩)).get k
          = (VObj.cons "session_id" (.str "s1") .nil).get k) :=
  from_message_inserts_lang
    ⟨"t", .nil, .cons "lang" (.str "en-US")
      (.cons "session" (.obj (.cons "session_id" (.str "s1") .nil)) .nil)⟩
    (.cons "session_id" (.str "s1") .nil) rfl rfl

/-- Claim C8, counterexample.  The claim says `inject_context` merges exactly
when every key of the metadata is PRESENT with an equal value in the top
frame's metadata.  `metadata_matches` compares `query[key] ==
self.metadata.get(key)`, and `dict.get` returns `None` for a missing key, so
a metadata key with value `None` also matches a frame where the key is
absent: injecting with metadata `{"k": None}` onto a top frame with empty
metadata MERGES (the stack keeps one frame, now holding two entities) where
the claim requires a new frame to be pushed. -/
theorem inject_context_null_metadata_counterexample :
    (ICMFrame.mk [VObj.cons "data" (.str "E1") .nil] .nil).metadata.hasKey "k" = false
    ∧ ((IntentContextManager.mk [(ICMFrame.mk [VObj.cons "data" (.str "E1") .nil] .nil, 0)]
        120).inject_context (.cons "data" (.str "E2") .nil)
        (some (.cons "k" .null .nil)) 1).frame_stack.length = 1
    ∧ (((IntentContextManager.mk [(ICMFrame.mk [VObj.cons "data" (.str "E1") .nil] .nil, 0)]
        120).inject_context (.cons "data" (.str "E2") .nil)
        (some (.cons "k" .null .nil)) 1).frame_stack.map
        (fun p => p.1.entities.length)) = [2] :=
  ⟨rfl, rfl, rfl⟩

/-- Claim C8 as amended: `inject_context` merges the entity into the top frame
(appending it to the entities and filling only the missing metadata keys)
exactly when the metadata is non-empty and every key of the metadata has a
value equal to `top.metadata.get(key)` — where a MISSING key reads as `None`,
so a null-valued metadata key also matches an absent one; otherwise (or when
the stack is empty) a new frame holding just that entity and the metadata is
pushed.  In particular two injections with metadata `{"turn": 1}` then
`{"turn": 1}` yield one frame with two entities, and a third with
`{"turn": 2}` yields a second frame. -/
theorem inject_context_spec :
    (∀ (icm : IntentContextManager) (entity md : VObj) (now : Int)
        (top : ICMFrame) (t0 : Int) (rest : List (ICMFrame × Int)),
        icm.frame_stack = (top, t0) :: rest →
        ((md.isEmpty = false
            ∧ md.all (fun k v => v == ((top.metadata.get k).getD .null)) = true) →
          (icm.inject_context entity (some md) now).frame_stack
            = (⟨top.entities ++ [entity], top.metadata.fillMissing md⟩, t0) :: rest)
        ∧ ((md.isEmpty = true
            ∨ md.all (fun k v => v == ((top.metadata.get k).getD .null)) = false) →
          (icm.inject_context entity (some md) now).frame_stack
            = (⟨[entity], md⟩, now) :: (top, t0) :: rest))
    ∧ (∀ (icm : IntentContextManager) (entity md : VObj) (now : Int),
        icm.frame_stack = [] →
        (icm.inject_context entity (some md) now).frame_stack = [(⟨[entity], md⟩, now)])
    ∧ (letI s1 := (IntentContextManager.mk [] 120).inject_context
          (.cons "data" (.str "E1") .nil) (some (.cons "turn" (.num 1) .nil)) 1
       letI s2 := s1.inject_context
          (.cons "data" (.str "E2") .nil) (some (.cons "turn" (.num 1) .nil)) 2
       letI s3 := s2.inject_context
          (.cons "data" (.str "E3") .nil) (some (.cons "turn" (.num 2) .nil)) 3
       s1.frame_stack.length = 1
       ∧ s2.frame_stack.length = 1
       ∧ s2.frame_stack.map (fun p => p.1.entities.length) = [2]
       ∧ s3.frame_stack.length = 2) := by
  refine ⟨?_, ?_, rfl, rfl, rfl, rfl⟩
  · intro icm entity md now top t0 rest hstack
    constructor
    · intro hcond
      simp [IntentContextManager.inject_context, hstack, ICMFrame.metadata_matches,
        hcond.1, hcond.2, ICMFrame.merge_context]
    · intro hcond
      rcases hcond with hempty | hall
      · simp [IntentContextManager.inject_context, hstack, ICMFrame.metadata_matches, hempty]
      · simp [IntentContextManager.inject_context, hstack, ICMFrame.metadata_matches, hall]
  · intro icm entity md now hempty
    simp [IntentContextManager.inject_context, hempty]

/-- Claim C8, witness: with a top frame built from one entity under metadata
`{"turn": 1}`, a second injection with the same metadata merges into it —
applying the merge case of the characterization. -/
theorem inject_context_spec_witness :
    ((IntentContextManager.mk
        [(ICMFrame.mk [VObj.cons "data" (.str "E1") .nil] (.cons "turn" (.num 1) .nil), 1)]
        120).inject_context (.cons "data" (.str "E2") .nil)
        (some (.cons "turn" (.num 1) .nil)) 2).frame_stack
      = (⟨[VObj.cons "data" (.str "E1") .nil] ++ [VObj.cons "data" (.str "E2") .nil],
          (VObj.cons "turn" (.num 1) .nil).fillMissing (.cons "turn" (.num 1) .nil)⟩, 1)
        :: [] :=
  (inject_context_spec.1
    (IntentContextManager.mk
      [(ICMFrame.mk [VObj.cons "data" (.str "E1") .nil] (.cons "turn" (.num 1) .nil), 1)]
      120)
    (.cons "data" (.str "E2") .nil) (.cons "turn" (.num 1) .nil) 2
    (ICMFrame.mk [VObj.cons "data" (.str "E1") .nil] (.cons "turn" (.num 1) .nil)) 1 []
    rfl).1 ⟨rfl, rfl⟩

/-- Does the confidence update of `get_context` succeed on this entity: its
`confidence` value is missing, numeric, or boolean (Python booleans divide as
0/1)? -/
def confidence_ok (e : VObj) : Bool :=
  match (e.get "confidence").getD (.num 1) with
  | .num _ => true
  | .bool _ => true
  | _ => false

/-- A confidence-safe entity passes `set_confidence` and keeps its `origin`
value (only the `confidence` key is written). -/
theorem set_confidence_ok (d : ℕ) (e : VObj) (h : confidence_ok e = true) :
    ∃ e', set_confidence d e = .ok e' ∧ e'.get "origin" = e.get "origin" := by
  rcases hv : (e.get "confidence").getD (.num 1) with _ | b | q | s | l | o <;>
    simp only [confidence_ok, hv] at h
  · exact absurd h (by simp)
  · have hs : set_confidence d e
        = .ok (e.set "confidence" (.num ((if b then (1 : ℚ) else 0) / ((2 : ℚ) + d)))) := by
      simp only [set_confidence, hv]
    exact ⟨_, hs, VObj.get_set_ne e "confidence" "origin" _ (by decide)⟩
  · have hs : set_confidence d e
        = .ok (e.set "confidence" (.num (q / ((2 : ℚ) + d)))) := by
      simp only [set_confidence, hv]
    exact ⟨_, hs, VObj.get_set_ne e "confidence" "origin" _ (by decide)⟩
  · exact absurd h (by simp)
  · exact absurd h (by simp)
  · exact absurd h (by simp)

/-- When every element maps to a success, `mapE` succeeds. -/
theorem mapE_ok_of_forall {α β : Type} (f : α → Except String β) :
    ∀ xs : List α, (∀ a ∈ xs, ∃ b, f a = .ok b) → ∃ l, mapE f xs = .ok l
  | [], _ => ⟨[], rfl⟩
  | x :: xs, h => by
      obtain ⟨y, hy⟩ := h x (by simp)
      obtain ⟨l, hl⟩ := mapE_ok_of_forall f xs (fun a ha => h a (by simp [ha]))
      exact ⟨y :: l, by simp [mapE, hy, hl]⟩

/-- A successful `mapE` over `xs ++ [x]` ends with the image of `x`. -/
theorem mapE_concat {α β : Type} (f : α → Except String β) :
    ∀ (xs : List α) (x : α) (l : List β), mapE f (xs ++ [x]) = .ok l →
      ∃ l1 y, mapE f xs = .ok l1 ∧ f x = .ok y ∧ l = l1 ++ [y]
  | [], x, l, h => by
      rw [List.nil_append] at h
      simp only [mapE] at h
      rcases hy : f x with e | y <;> rw [hy] at h
      · cases h
      · cases h
        exact ⟨[], y, rfl, rfl, rfl⟩
  | a :: xs, x, l, h => by
      rw [List.cons_append] at h
      simp only [mapE] at h
      rcases ha : f a with e | y <;> rw [ha] at h
      · cases h
      · rcases hm : mapE f (xs ++ [x]) with e | l2 <;> rw [hm] at h
        · cases h
        · obtain ⟨l1, y2, h1, h2, h3⟩ := mapE_concat f xs x l2 hm
          refine ⟨y :: l1, y2, by simp [mapE, ha, h1], h2, ?_⟩
          cases h
          simp [h3]

/-- Claim C10: when the window of non-timed-out frames visited by
`get_context` is non-empty and its newest frame `f0` either has an empty
entities list, or has a last entity without an `origin` key (and
confidence-safe entities, so the loop reaches the depth update), the
depth-update read `entity["origin"]` raises `KeyError` and `get_context`
fails instead of returning a list of entities. -/
theorem get_context_raises_keyerror (icm : IntentContextManager)
    (max_frames : Option Int) (missing : Option (List Value)) (now : Int)
    (f0 : ICMFrame) (fs : List ICMFrame)
    (hwin : icm.loop_frames max_frames now = f0 :: fs) :
    (f0.entities = [] →
        icm.get_context max_frames missing now = .error "KeyError: origin")
    ∧ (∀ (pre : List VObj) (elast : VObj), f0.entities = pre ++ [elast] →
        f0.entities.all confidence_ok = true →
        elast.get "origin" = none →
        icm.get_context max_frames missing now = .error "KeyError: origin") := by
  constructor
  · intro he
    simp [IntentContextManager.get_context, hwin, get_context_loop, he, mapE, VObj.get]
  · intro pre elast hsplit hconf horig
    have hmem : ∀ a ∈ f0.entities, ∃ b, set_confidence 0 a = .ok b := by
      intro a ha
      obtain ⟨e', he', -⟩ :=
        set_confidence_ok 0 a (List.all_eq_true.mp hconf a ha)
      exact ⟨e', he'⟩
    obtain ⟨l, hl⟩ := mapE_ok_of_forall (set_confidence 0) f0.entities hmem
    rw [hsplit] at hl
    obtain ⟨l1, y, -, h2, h3⟩ := mapE_concat _ pre elast l hl
    have hconfe : confidence_ok elast = true :=
      List.all_eq_true.mp hconf elast (by simp [hsplit])
    obtain ⟨e', he', hor⟩ := set_confidence_ok 0 elast hconfe
    have hye : y = e' := by
      rw [he'] at h2
      cases h2
      rfl
    have hyorig : y.get "origin" = none := by
      rw [hye, hor, horig]
    simp only [IntentContextManager.get_context, hwin, get_context_loop, hsplit, hl,
      h3, List.getLast?_concat, Option.getD_some, hyorig]

/-- Claim C10, witness: a stack whose newest frame has no entities raises,
and a stack built by injecting a single entity without an `origin` key (a
state reachable through `inject_context`) raises too. -/
theorem get_context_raises_keyerror_witness :
    (IntentContextManager.mk [(ICMFrame.mk [] .nil, 0)] 120).get_context none none 1
      = .error "KeyError: origin"
    ∧ ((IntentContextManager.mk [] 120).inject_context
        (.cons "data" (.str "d") .nil) none 0).get_context none none 1
      = .error "KeyError: origin" := by
  constructor
  · exact (get_context_raises_keyerror
      (IntentContextManager.mk [(ICMFrame.mk [] .nil, 0)] 120) none none 1
      (ICMFrame.mk [] .nil) [] rfl).1 rfl
  · exact (get_context_raises_keyerror
      ((IntentContextManager.mk [] 120).inject_context
        (.cons "data" (.str "d") .nil) none 0) none none 1
      (ICMFrame.mk [VObj.cons "data" (.str "d") .nil] .nil) [] rfl).2
      [] (.cons "data" (.str "d") .nil) rfl rfl rfl

end OvosBusClient
